import Mathlib

/-!
Shallow embedding of the core of `src/streamlit_app.py`
(AI Convolution Dashboard, a Streamlit + Plotly visualization layer).

Python dictionaries coming from `json.load` are modelled as association
lists `List (String × Json)` with unique keys (JSON object keys after
`json.load` deduplication), Python `None` as `Json.null`, JSON numbers as
rationals, and `datetime` values as microsecond counts since
0001-01-01T00:00:00 together with an optional timezone offset.
-/

namespace Dashboard

/-- JSON values, as produced by Python's `json.load`. Numbers are modelled
as rationals (sufficient for the integer and decimal literals that occur
in the claims; float rounding is irrelevant to every claim). -/
inductive Json where
  | null : Json
  | bool (b : Bool) : Json
  | num (q : Rat) : Json
  | str (s : String) : Json
  | arr (elems : List Json) : Json
  | obj (fields : List (String × Json)) : Json
deriving Repr

mutual

/-- Structural equality test on JSON values. -/
def Json.beq : Json → Json → Bool
  | .null, .null => true
  | .bool a, .bool b => a == b
  | .num a, .num b => a == b
  | .str a, .str b => a == b
  | .arr a, .arr b => Json.beqList a b
  | .obj a, .obj b => Json.beqFields a b
  | _, _ => false

/-- Structural equality test on JSON arrays. -/
def Json.beqList : List Json → List Json → Bool
  | [], [] => true
  | x :: xs, y :: ys => Json.beq x y && Json.beqList xs ys
  | _, _ => false

/-- Structural equality test on JSON object fields. -/
def Json.beqFields : List (String × Json) → List (String × Json) → Bool
  | [], [] => true
  | (k, x) :: xs, (k', y) :: ys =>
      k == k' && Json.beq x y && Json.beqFields xs ys
  | _, _ => false

end

mutual

theorem Json.beq_iff : ∀ a b : Json, Json.beq a b = true ↔ a = b
  | .null, .null => by simp [Json.beq]
  | .bool a, .bool b => by simp [Json.beq]
  | .num a, .num b => by simp [Json.beq]
  | .str a, .str b => by simp [Json.beq]
  | .arr a, .arr b => by simp [Json.beq, Json.beqList_iff a b]
  | .obj a, .obj b => by simp [Json.beq, Json.beqFields_iff a b]
  | .null, .bool _ | .null, .num _ | .null, .str _ | .null, .arr _
  | .null, .obj _ | .bool _, .null | .bool _, .num _ | .bool _, .str _
  | .bool _, .arr _ | .bool _, .obj _ | .num _, .null | .num _, .bool _
  | .num _, .str _ | .num _, .arr _ | .num _, .obj _ | .str _, .null
  | .str _, .bool _ | .str _, .num _ | .str _, .arr _ | .str _, .obj _
  | .arr _, .null | .arr _, .bool _ | .arr _, .num _ | .arr _, .str _
  | .arr _, .obj _ | .obj _, .null | .obj _, .bool _ | .obj _, .num _
  | .obj _, .str _ | .obj _, .arr _ => by simp [Json.beq]

theorem Json.beqList_iff : ∀ a b : List Json, Json.beqList a b = true ↔ a = b
  | [], [] => by simp [Json.beqList]
  | x :: xs, y :: ys => by
      simp [Json.beqList, Json.beq_iff x y, Json.beqList_iff xs ys]
  | [], _ :: _ => by simp [Json.beqList]
  | _ :: _, [] => by simp [Json.beqList]

theorem Json.beqFields_iff :
    ∀ a b : List (String × Json), Json.beqFields a b = true ↔ a = b
  | [], [] => by simp [Json.beqFields]
  | (k, x) :: xs, (k', y) :: ys => by
      simp [Json.beqFields, Json.beq_iff x y, Json.beqFields_iff xs ys,
        and_assoc]
  | [], _ :: _ => by simp [Json.beqFields]
  | _ :: _, [] => by simp [Json.beqFields]

end

instance : DecidableEq Json :=
  fun a b => decidable_of_iff _ (Json.beq_iff a b)

/-- Dictionary lookup, `d.get(k)` on a Python dict modelled as an
association list with unique keys: the value at the first matching key. -/
def pyGet (d : List (String × Json)) (k : String) : Option Json :=
  (d.find? (fun p => p.1 == k)).map (fun p => p.2)

/-- Truthiness of a value under Python's `bool(...)` coercion. -/
def falsy : Json → Bool
  | Json.null => true
  | Json.bool b => !b
  | Json.num q => q == 0
  | Json.str s => s == ""
  | Json.arr l => l.isEmpty
  | Json.obj l => l.isEmpty

/-- Containment of `needle` as a contiguous run inside `hay`, the meaning
of Python's `needle in hay` on strings. -/
def containsChars (hay needle : List Char) : Bool :=
  match hay with
  | [] => needle.isEmpty
  | _ :: t => needle.isPrefixOf hay || containsChars t needle

/-- Python `str.lower()`, character by character (exact on the ASCII
strings the claims exercise). -/
def pyLower (s : String) : String :=
  String.mk (s.data.map Char.toLower)

/-!
Timestamp parsing (`parse_timestamp`, lines 54-66 of the source).

A `datetime` value is the count of microseconds since the minimum
representable datetime 0001-01-01T00:00:00 (`datetime.min`), together
with the timezone offset in minutes when the value is timezone-aware.
-/

/-- Python `datetime`: naive microseconds since 0001-01-01T00:00:00 plus
an optional UTC offset in minutes (`None` for a naive value). -/
structure PyDatetime where
  usec : Int
  tzmin : Option Int
deriving DecidableEq, Repr

/-- Leap year test of the proleptic Gregorian calendar. -/
def isLeap (y : Nat) : Bool :=
  y % 4 == 0 && (y % 100 != 0 || y % 400 == 0)

/-- Number of days in a month (month `1`..`12`). -/
def daysInMonth (y m : Nat) : Nat :=
  if m == 2 then (if isLeap y then 29 else 28)
  else if m == 4 || m == 6 || m == 9 || m == 11 then 30
  else 31

/-- Cumulative days before month `m` in a non-leap year. -/
def cumDaysBeforeMonth : Nat → Nat
  | 1 => 0 | 2 => 31 | 3 => 59 | 4 => 90 | 5 => 120 | 6 => 151
  | 7 => 181 | 8 => 212 | 9 => 243 | 10 => 273 | 11 => 304 | 12 => 334
  | _ => 0

/-- Days before January 1st of year `y` counted from 0001-01-01. -/
def daysBeforeYear (y : Nat) : Nat :=
  let n := y - 1
  365 * n + n / 4 - n / 100 + n / 400

/-- Proleptic-Gregorian ordinal of a date, with `ordinal 1 1 1 = 1`,
matching Python's `date.toordinal`. -/
def ordinal (y m d : Nat) : Nat :=
  daysBeforeYear y + cumDaysBeforeMonth m
    + (if 2 < m && isLeap y then 1 else 0) + d

/-- Fixed-width digit run: consumes exactly `n` decimal digits,
accumulating their value onto `acc`. -/
def readDigits : Nat → List Char → Nat → Option (Nat × List Char)
  | 0, cs, acc => some (acc, cs)
  | n + 1, c :: cs, acc =>
      if c.isDigit then readDigits n cs (acc * 10 + (c.toNat - 48)) else none
  | _ + 1, [], _ => none

/-- Consume one expected literal character. -/
def expectChar (c : Char) : List Char → Option (List Char)
  | c' :: rest => if c' = c then some rest else none
  | [] => none

/-- Value of a run of decimal digits. -/
def digitsToNat (ds : List Char) : Nat :=
  ds.foldl (fun a c => a * 10 + (c.toNat - 48)) 0

/-- Time-of-day parser for `HH[:MM[:SS[.fff[fff]]]]`, returning the
microseconds into the day and the unconsumed input, as accepted by
`datetime.fromisoformat`. -/
def parseTimeOfDay (cs : List Char) : Option (Nat × List Char) := do
  let (h, cs1) ← readDigits 2 cs 0
  if 23 < h then none
  else
    match cs1 with
    | ':' :: cs2 => do
      let (mi, cs3) ← readDigits 2 cs2 0
      if 59 < mi then none
      else
        match cs3 with
        | ':' :: cs4 => do
          let (se, cs5) ← readDigits 2 cs4 0
          if 59 < se then none
          else
            match cs5 with
            | '.' :: cs6 =>
              let (ds, cs7) := cs6.span Char.isDigit
              if ds.length == 3 then
                some (((h * 3600 + mi * 60 + se) * 1000000
                  + digitsToNat ds * 1000), cs7)
              else if ds.length == 6 then
                some (((h * 3600 + mi * 60 + se) * 1000000
                  + digitsToNat ds), cs7)
              else none
            | _ => some ((h * 3600 + mi * 60 + se) * 1000000, cs5)
        | _ => some ((h * 60 + mi) * 60 * 1000000, cs3)
    | _ => some (h * 3600 * 1000000, cs1)

/-- Timezone-offset suffix parser: the empty suffix yields a naive value,
`±HH:MM` yields the offset in minutes; anything else is a parse error.
The whole remaining input must be consumed. -/
def parseTzSuffix : List Char → Option (Option Int)
  | [] => some none
  | '+' :: r => do
      let (th, r1) ← readDigits 2 r 0
      let r2 ← expectChar ':' r1
      let (tm, r3) ← readDigits 2 r2 0
      if 23 < th || 59 < tm || !r3.isEmpty then none
      else some (some ((th * 60 + tm : Nat) : Int))
  | '-' :: r => do
      let (th, r1) ← readDigits 2 r 0
      let r2 ← expectChar ':' r1
      let (tm, r3) ← readDigits 2 r2 0
      if 23 < th || 59 < tm || !r3.isEmpty then none
      else some (some (-((th * 60 + tm : Nat) : Int)))
  | _ => none

/-- Model of `datetime.fromisoformat`: parses
`YYYY-MM-DD[*HH[:MM[:SS[.fff[fff]]]][±HH:MM]]` (the documented grammar,
with any single character as the date/time separator), returning `none`
where Python raises `ValueError`. -/
def fromisoformat (s : String) : Option PyDatetime := do
  let cs := s.data
  let (y, cs1) ← readDigits 4 cs 0
  let cs2 ← expectChar '-' cs1
  let (mo, cs3) ← readDigits 2 cs2 0
  let cs4 ← expectChar '-' cs3
  let (d, cs5) ← readDigits 2 cs4 0
  if y < 1 || mo < 1 || 12 < mo || d < 1 || daysInMonth y mo < d then none
  else
    let dayUsec : Int := ((ordinal y mo d : Int) - 1) * 86400000000
    match cs5 with
    | [] => some ⟨dayUsec, none⟩
    | _sep :: rest => do
      let (tod, rest1) ← parseTimeOfDay rest
      let tz ← parseTzSuffix rest1
      some ⟨dayUsec + (tod : Int), tz⟩

/-- Fallback value `datetime.min.replace(tzinfo=timezone.utc)`. -/
def dtminUtc : PyDatetime := ⟨0, some 0⟩

/-- Embedding of `parse_timestamp` (source lines 54-66): the `entry` dict's
`timestamp` value, with the minimum-UTC fallback for a missing or falsy
field and for any parse failure. `datetime.fromisoformat` raises
`TypeError` on a non-string argument, which the bare `except` also maps
to the fallback. -/
def parse_timestamp (entry : List (String × Json)) : PyDatetime :=
  match pyGet entry "timestamp" with
  | none => dtminUtc
  | some ts =>
    if falsy ts then dtminUtc
    else
      match ts with
      | Json.str s =>
        match fromisoformat s with
        | some dt =>
          match dt.tzmin with
          | none => ⟨dt.usec, some 0⟩
          | some _ => dt
        | none => dtminUtc
      | _ => dtminUtc

/-- Comparison key of an aware `datetime`: absolute microseconds (naive
microseconds minus the UTC offset), the order Python uses when comparing
timezone-aware datetimes. -/
def tsKey (dt : PyDatetime) : Int :=
  dt.usec - (dt.tzmin.getD 0) * 60000000

/-- Sort key of one loaded entry. Every element reaching the sort is a
JSON object (a non-dict would raise `AttributeError` inside
`parse_timestamp` in Python and is outside the claims' domain). -/
def entryKey : Json → Int
  | Json.obj fields => tsKey (parse_timestamp fields)
  | _ => 0

/-- Comparator realizing `sorted(..., key=parse_timestamp, reverse=True)`:
`a` may stay before `b` exactly when `a`'s key is at least `b`'s, which
combined with a stable sort reproduces Python's stable descending sort. -/
def resultOrder (a b : Json) : Bool :=
  decide (entryKey b ≤ entryKey a)

/-- Membership test `"plot" in r`. For a dict this is key membership; for
a list, element membership; for a string, substring membership (Python
semantics); for the remaining scalars Python raises `TypeError`, outside
the claims' domain of lists of objects. -/
def hasPlotKey : Json → Bool
  | Json.obj fields => fields.any (fun p => p.1 == "plot")
  | Json.arr xs => xs.any (fun x => Json.beq x (Json.str "plot"))
  | Json.str s => containsChars s.data "plot".data
  | _ => false

/-- Embedding of `load_results` (source lines 39-51) applied to an
already-parsed JSON document: a dict is wrapped into a one-element list,
elements lacking a `plot` key are discarded, and the rest is stably
sorted by `parse_timestamp`, most recent first. A scalar top-level value
is outside the claims' domain (a string iterates to one-character strings
none of which contains `"plot"`, other scalars raise `TypeError`). -/
def load_results : Json → List Json
  | Json.obj fields => (([Json.obj fields]).filter hasPlotKey).mergeSort resultOrder
  | Json.arr l => ((l.filter hasPlotKey)).mergeSort resultOrder
  | _ => []

/-- File-level `load_results`: a missing file (`none`) yields the empty
list; otherwise the parsed document is processed. Malformed JSON raises
inside `json.load` before this point. -/
def load_results_pure : Option Json → List Json
  | none => []
  | some j => load_results j

/-!
Plot rendering layer (source lines 73-136): `go.Figure` is modelled as
the ordered list of traces added so far plus the layout mapping
accumulated by `update_layout` calls.
-/

/-- Rendered Plotly trace, one constructor per `fig.add_*` call in the
source. Keyword values the source fetches from the trace dict are kept
verbatim (`Json.null` standing for Python `None`). -/
inductive PlotlyTrace where
  | bar (x y name marker text textposition : Json)
  | scatter (x y : Json) (mode : String) (name : Json)
  | pie (labels values name : Json) (textinfo : String)
deriving DecidableEq, Repr

/-- Plotly figure: ordered traces plus the layout option mapping. -/
structure Figure where
  traces : List PlotlyTrace
  layout : List (String × Json)
deriving DecidableEq, Repr

/-- Assignment `d[k] = v` on a Python dict: replaces the value in place
when the key exists, otherwise appends the new binding. -/
def dictSet (d : List (String × Json)) (k : String) (v : Json) :
    List (String × Json) :=
  if d.any (fun p => p.1 == k) then
    d.map (fun p => if p.1 == k then (k, v) else p)
  else d ++ [(k, v)]

/-- Model of `fig.update_layout(**kvs)`: each supplied option overwrites
the layout entry of the same name. -/
def updateLayout (fig : Figure) (kvs : List (String × Json)) : Figure :=
  { fig with layout := kvs.foldl (fun d kv => dictSet d kv.1 kv.2) fig.layout }

/-- Embedding of `build_bar` (source lines 73-81): appends one bar trace
with defaults `marker={}` and `textposition="auto"`. -/
def build_bar (fig : Figure) (trace : List (String × Json)) : Figure :=
  { fig with traces := fig.traces ++ [PlotlyTrace.bar
      ((pyGet trace "x").getD Json.null)
      ((pyGet trace "y").getD Json.null)
      ((pyGet trace "name").getD Json.null)
      ((pyGet trace "marker").getD (Json.obj []))
      ((pyGet trace "text").getD Json.null)
      ((pyGet trace "textposition").getD (Json.str "auto"))] }

/-- Embedding of `build_line` (source lines 84-90): appends one scatter
trace in mode `"lines+markers"`. -/
def build_line (fig : Figure) (trace : List (String × Json)) : Figure :=
  { fig with traces := fig.traces ++ [PlotlyTrace.scatter
      ((pyGet trace "x").getD Json.null)
      ((pyGet trace "y").getD Json.null)
      "lines+markers"
      ((pyGet trace "name").getD Json.null)] }

/-- Embedding of `build_pie` (source lines 93-99): appends one pie trace
with `textinfo="percent+label"`. -/
def build_pie (fig : Figure) (trace : List (String × Json)) : Figure :=
  { fig with traces := fig.traces ++ [PlotlyTrace.pie
      ((pyGet trace "labels").getD Json.null)
      ((pyGet trace "values").getD Json.null)
      ((pyGet trace "name").getD Json.null)
      "percent+label"] }

/-- Embedding of the `TRACE_BUILDERS` dispatch table (source lines
102-107). -/
def TRACE_BUILDERS :
    List (String × (Figure → List (String × Json) → Figure)) :=
  [("bar", build_bar), ("line", build_line),
   ("scatter", build_line), ("pie", build_pie)]

/-- Dispatch `TRACE_BUILDERS.get(trace_type)`: only string keys occur in
the table, so every non-string hashable value looks up to `None`
(an unhashable value would raise `TypeError` in Python and is outside the
claims' trace domain). -/
def lookupBuilder (t : Json) : Option (Figure → List (String × Json) → Figure) :=
  match t with
  | Json.str s => (TRACE_BUILDERS.find? (fun p => p.1 == s)).map (fun p => p.2)
  | _ => none

/-- One iteration of the trace loop in `plotly_from_metadata`:
`trace.get("type")` (absent modelled as `Json.null`, exactly how Python's
`None` then misses the dispatch table), then the builder runs when one is
registered, otherwise the trace is skipped. A non-dict trace would raise
in Python and is outside the claims' domain. -/
def applyTrace (fig : Figure) (tr : Json) : Figure :=
  match tr with
  | Json.obj fields =>
    match lookupBuilder ((pyGet fields "type").getD Json.null) with
    | some b => b fig fields
    | none => fig
  | _ => fig

/-- Fixed default layout options of `plotly_from_metadata` (source lines
120-124): dark theme, fixed margins, centered title. -/
def defaultLayoutKwargs : List (String × Json) :=
  [("template", Json.str "plotly_dark"),
   ("margin", Json.obj [("l", Json.num 40), ("r", Json.num 40),
                        ("t", Json.num 60), ("b", Json.num 40)]),
   ("title_x", Json.num (1 / 2))]

/-- Embedding of `plotly_from_metadata` (source lines 110-128): start
from an empty figure, run every trace through the dispatch loop, apply
the default layout, then apply `plot_spec.get("layout", {})` as an
override. Absent `data`/`layout` default to empty; a non-list `data` or
non-dict `layout` would raise in Python and is outside the claims'
domain. -/
def plotly_from_metadata (plot_spec : List (String × Json)) : Figure :=
  let fig : Figure := ⟨[], []⟩
  let data : List Json :=
    match pyGet plot_spec "data" with
    | some (Json.arr l) => l
    | _ => []
  let fig := data.foldl applyTrace fig
  let fig := updateLayout fig defaultLayoutKwargs
  updateLayout fig
    (match pyGet plot_spec "layout" with
     | some (Json.obj fs) => fs
     | _ => [])

/-- Python `str.capitalize()`: first character uppercased, the rest
lowercased. -/
def pyCapitalize (s : String) : String :=
  match s.data with
  | [] => ""
  | c :: cs => String.mk (c.toUpper :: cs.map Char.toLower)

/-- Embedding of `detect_chart_type` (source lines 131-136):
`plot_spec.get("data", [])`, the label `"Unknown"` when that is falsy,
otherwise the capitalized `type` of the first trace with the default
`"Unknown"`. A first trace that is not a dict, or a non-string `type`
value, would raise in Python and is outside the claims' domain. -/
def detect_chart_type (plot_spec : List (String × Json)) : String :=
  match (pyGet plot_spec "data").getD (Json.arr []) with
  | Json.arr [] => "Unknown"
  | Json.arr (Json.obj fields :: _) =>
    (match pyGet fields "type" with
     | some (Json.str t) => pyCapitalize t
     | _ => pyCapitalize "Unknown")
  | _ => "Unknown"

/-!
Sidebar filtering (source lines 143-164). The searchable text of an
entry is `r.get("query", "Unnamed Query")`; a non-empty search term
keeps index `i` exactly when the lowercased term occurs in the lowercased
text.
-/

/-- Field access on an entry, `r.get(k)` with `r` a JSON object (a
non-dict entry would raise `AttributeError` in Python and is outside the
claims' domain). -/
def pyGetJ (r : Json) (k : String) : Option Json :=
  match r with
  | Json.obj fields => pyGet fields k
  | _ => none

/-- Searchable text of one entry: `r.get("query", "Unnamed Query")`. -/
def rawQuery (r : Json) : Json :=
  (pyGetJ r "query").getD (Json.str "Unnamed Query")

/-- Lowercasing a query value: defined for strings only, since
`q.lower()` raises `AttributeError` on any other value (modelled as
`none`). -/
def lowerQuery : Json → Option String
  | Json.str s => some (pyLower s)
  | _ => none

/-- Embedding of the filtering in `render_sidebar` (source lines
151-159): an empty search term keeps every index `0..N-1` in order;
otherwise index `i` survives exactly when the lowercased term occurs as
a substring of the lowercased query text of entry `i`. Returns `none`
when Python would raise (some query value is not a string). -/
def filtered_indices (results : List Json) (search : String) :
    Option (List Nat) :=
  if search = "" then some (List.range results.length)
  else
    match (results.map rawQuery).mapM lowerQuery with
    | none => none
    | some lqs =>
      some (lqs.enum.filterMap (fun p =>
        if containsChars p.2.data (pyLower search).data then some p.1 else none))

/-!
Export (source lines 230-236) and caching (the `st.cache_data` decorator
on `load_results`, source line 38).
-/

/-- Payload of the download button: `json.dumps(results, indent=2)`
followed by re-parsing is the identity on JSON documents, so the
serialized full result list is modelled as the JSON array of the loaded
entries. -/
def download_payload (results : List Json) : Json :=
  Json.arr results

/-- Model of `st.cache_data` applied to `load_results`: Streamlit
memoizes on the function's arguments, here the path value alone. The
file system is a map from path to parsed content (`none` = missing
file). A hit returns the stored value without consulting the file;
a miss computes from the current content and stores it under the path. -/
def cached_load (cache : List (String × List Json))
    (fs : String → Option Json) (path : String) :
    List Json × List (String × List Json) :=
  match cache.find? (fun p => p.1 == path) with
  | some kv => (kv.2, cache)
  | none =>
    let v := load_results_pure (fs path)
    (v, cache ++ [(path, v)])

/-!
Specification-side descriptions, written from the spec's words, to be
compared with the embedded implementation.
-/

/-- Rendered trace of one TraceSpec according to the spec's fixed
dispatch mapping: `"bar"` renders a bar trace, `"line"` and `"scatter"`
share the line builder's rendering (connected markers+lines), `"pie"`
renders a pie trace, and every other (or missing) type yields no trace. -/
def claimRendered (tr : Json) : Option PlotlyTrace :=
  match tr with
  | Json.obj fields =>
    match (pyGet fields "type").getD Json.null with
    | Json.str "bar" => some (PlotlyTrace.bar
        ((pyGet fields "x").getD Json.null)
        ((pyGet fields "y").getD Json.null)
        ((pyGet fields "name").getD Json.null)
        ((pyGet fields "marker").getD (Json.obj []))
        ((pyGet fields "text").getD Json.null)
        ((pyGet fields "textposition").getD (Json.str "auto")))
    | Json.str "line" => some (PlotlyTrace.scatter
        ((pyGet fields "x").getD Json.null)
        ((pyGet fields "y").getD Json.null)
        "lines+markers"
        ((pyGet fields "name").getD Json.null))
    | Json.str "scatter" => some (PlotlyTrace.scatter
        ((pyGet fields "x").getD Json.null)
        ((pyGet fields "y").getD Json.null)
        "lines+markers"
        ((pyGet fields "name").getD Json.null))
    | Json.str "pie" => some (PlotlyTrace.pie
        ((pyGet fields "labels").getD Json.null)
        ((pyGet fields "values").getD Json.null)
        ((pyGet fields "name").getD Json.null)
        "percent+label")
    | _ => none
  | _ => none

/-!
Helper lemmas about the trace loop.
-/

theorem applyTrace_traces (fig : Figure) (tr : Json) :
    (applyTrace fig tr).traces = fig.traces ++ (claimRendered tr).toList := by
  match tr with
  | Json.null | Json.bool _ | Json.num _ | Json.str _ | Json.arr _ =>
      simp [applyTrace, claimRendered]
  | Json.obj fields =>
    simp only [applyTrace, claimRendered]
    match h : (pyGet fields "type").getD Json.null with
    | Json.null | Json.bool _ | Json.num _ | Json.arr _ | Json.obj _ =>
        simp [lookupBuilder]
    | Json.str s =>
      by_cases h1 : s = "bar"
      · subst h1; simp [lookupBuilder, TRACE_BUILDERS, List.find?, build_bar]
      by_cases h2 : s = "line"
      · subst h2; simp [lookupBuilder, TRACE_BUILDERS, List.find?, build_line]
      by_cases h3 : s = "scatter"
      · subst h3; simp [lookupBuilder, TRACE_BUILDERS, List.find?, build_line]
      by_cases h4 : s = "pie"
      · subst h4; simp [lookupBuilder, TRACE_BUILDERS, List.find?, build_pie]
      have e1 : ("bar" == s) = false := by
        simp [beq_iff_eq]; exact fun e => h1 e.symm
      have e2 : ("line" == s) = false := by
        simp [beq_iff_eq]; exact fun e => h2 e.symm
      have e3 : ("scatter" == s) = false := by
        simp [beq_iff_eq]; exact fun e => h3 e.symm
      have e4 : ("pie" == s) = false := by
        simp [beq_iff_eq]; exact fun e => h4 e.symm
      simp [lookupBuilder, TRACE_BUILDERS, List.find?, e1, e2, e3, e4, h1, h2, h3, h4]

theorem applyTrace_layout (fig : Figure) (tr : Json) :
    (applyTrace fig tr).layout = fig.layout := by
  match tr with
  | Json.null | Json.bool _ | Json.num _ | Json.str _ | Json.arr _ =>
      simp [applyTrace]
  | Json.obj fields =>
    simp only [applyTrace]
    match h : (pyGet fields "type").getD Json.null with
    | Json.null | Json.bool _ | Json.num _ | Json.arr _ | Json.obj _ =>
        simp [lookupBuilder]
    | Json.str s =>
      by_cases h1 : s = "bar"
      · subst h1; simp [lookupBuilder, TRACE_BUILDERS, List.find?, build_bar]
      by_cases h2 : s = "line"
      · subst h2; simp [lookupBuilder, TRACE_BUILDERS, List.find?, build_line]
      by_cases h3 : s = "scatter"
      · subst h3; simp [lookupBuilder, TRACE_BUILDERS, List.find?, build_line]
      by_cases h4 : s = "pie"
      · subst h4; simp [lookupBuilder, TRACE_BUILDERS, List.find?, build_pie]
      have e1 : ("bar" == s) = false := by
        simp [beq_iff_eq]; exact fun e => h1 e.symm
      have e2 : ("line" == s) = false := by
        simp [beq_iff_eq]; exact fun e => h2 e.symm
      have e3 : ("scatter" == s) = false := by
        simp [beq_iff_eq]; exact fun e => h3 e.symm
      have e4 : ("pie" == s) = false := by
        simp [beq_iff_eq]; exact fun e => h4 e.symm
      simp [lookupBuilder, TRACE_BUILDERS, List.find?, e1, e2, e3, e4]

theorem foldl_applyTrace_traces (data : List Json) (fig : Figure) :
    (data.foldl applyTrace fig).traces
      = fig.traces ++ data.filterMap claimRendered := by
  induction data generalizing fig with
  | nil => simp
  | cons tr rest ih =>
    simp only [List.foldl_cons, List.filterMap_cons]
    rw [ih, applyTrace_traces]
    match claimRendered tr with
    | none => simp
    | some t => simp

theorem foldl_applyTrace_layout (data : List Json) (fig : Figure) :
    (data.foldl applyTrace fig).layout = fig.layout := by
  induction data generalizing fig with
  | nil => simp
  | cons tr rest ih => rw [List.foldl_cons, ih, applyTrace_layout]

theorem updateLayout_traces (fig : Figure) (kvs : List (String × Json)) :
    (updateLayout fig kvs).traces = fig.traces := rfl

/-!
Helper lemmas about the descending stable sort of `load_results`.
-/

theorem resultOrder_trans (a b c : Json) (h1 : resultOrder a b)
    (h2 : resultOrder b c) : resultOrder a c := by
  simp only [resultOrder, decide_eq_true_eq] at h1 h2 ⊢
  exact le_trans h2 h1

theorem resultOrder_total (a b : Json) : resultOrder a b || resultOrder b a := by
  simp only [resultOrder, Bool.or_eq_true, decide_eq_true_eq]
  exact le_total (entryKey b) (entryKey a)

/-- Stability of the sort, phrased per key value: the entries of any
fixed sort key appear in the output exactly as they appear in the
input. -/
theorem mergeSort_filter_key (l : List Json) (kk : Int) :
    (l.mergeSort resultOrder).filter (fun r => entryKey r == kk)
      = l.filter (fun r => entryKey r == kk) := by
  set p : Json → Bool := fun r => entryKey r == kk with hp
  have hpw : (l.filter p).Pairwise (fun a b => resultOrder a b = true) := by
    apply List.pairwise_of_forall_mem_list
    intro a ha b hb
    have ha' := List.of_mem_filter ha
    have hb' := List.of_mem_filter hb
    simp only [hp, beq_iff_eq] at ha' hb'
    simp [resultOrder, ha', hb']
  have h1 : List.Sublist (l.filter p) (l.mergeSort resultOrder) :=
    List.sublist_mergeSort resultOrder_trans resultOrder_total hpw
      (List.filter_sublist l)
  have h2 : List.Sublist ((l.filter p).filter p)
      ((l.mergeSort resultOrder).filter p) := h1.filter p
  rw [List.filter_filter] at h2
  simp only [Bool.and_self] at h2
  have hperm : List.Perm ((l.mergeSort resultOrder).filter p) (l.filter p) :=
    (l.mergeSort_perm resultOrder).filter p
  exact (h2.eq_of_length hperm.length_eq.symm).symm

/-- Fallback condition of `parse_timestamp`: the `timestamp` field is
missing, falsy (absent-like), not a string, or fails ISO-8601 parsing. -/
def tsBad (fields : List (String × Json)) : Bool :=
  match pyGet fields "timestamp" with
  | none => true
  | some ts =>
    falsy ts ||
      (match ts with
       | Json.str s => (fromisoformat s).isNone
       | _ => true)

theorem parse_timestamp_of_tsBad (fields : List (String × Json))
    (h : tsBad fields = true) : parse_timestamp fields = dtminUtc := by
  unfold tsBad at h
  unfold parse_timestamp
  cases hts : pyGet fields "timestamp" with
  | none => rfl
  | some ts =>
    rw [hts] at h
    by_cases hf : falsy ts = true
    · simp [hf]
    · rw [Bool.not_eq_true] at hf
      simp only [hf, Bool.false_or] at h
      simp only [hf, Bool.false_eq_true, if_false]
      cases ts with
      | str s =>
        rw [Option.isNone_iff_eq_none] at h
        simp [h]
      | null => rfl
      | bool b => rfl
      | num q => rfl
      | arr l => rfl
      | obj fs => rfl

theorem entryKey_dtminUtc (fields : List (String × Json))
    (h : parse_timestamp fields = dtminUtc) :
    entryKey (Json.obj fields) = 0 := by
  simp [entryKey, h, tsKey, dtminUtc]

/-!
Claim theorems for the Result Loader.
-/

/-- C3: for a JSON array of N objects of which M contain a `plot` key,
`load` returns exactly the M entries holding a `plot` key (a permutation
of them, hence exactly M of them), and a single top-level object is
treated as a one-element list. -/
theorem claim_C3_load_count (l : List Json)
    (hwf : ∀ r ∈ l, ∃ fields, r = Json.obj fields) :
    List.Perm (load_results (Json.arr l)) (l.filter hasPlotKey)
    ∧ (load_results (Json.arr l)).length = (l.filter hasPlotKey).length
    ∧ (∀ fields, load_results (Json.obj fields)
        = if hasPlotKey (Json.obj fields) then [Json.obj fields] else []) := by
  refine ⟨?_, ?_, ?_⟩
  · simpa [load_results] using (l.filter hasPlotKey).mergeSort_perm resultOrder
  · simp [load_results]
  · intro fields
    by_cases h : hasPlotKey (Json.obj fields) <;>
      simp [load_results, List.filter, h]

/-- Witness for C3 at a concrete input: three objects, two with `plot`. -/
theorem claim_C3_witness :
    (load_results (Json.arr
      [Json.obj [("plot", Json.obj []), ("query", Json.str "a")],
       Json.obj [("query", Json.str "b")],
       Json.obj [("plot", Json.obj []), ("query", Json.str "c")]])).length = 2
    ∧ load_results (Json.obj [("plot", Json.obj [])])
        = [Json.obj [("plot", Json.obj [])]] := by
  have h := claim_C3_load_count
    [Json.obj [("plot", Json.obj []), ("query", Json.str "a")],
     Json.obj [("query", Json.str "b")],
     Json.obj [("plot", Json.obj []), ("query", Json.str "c")]]
    (by intro r hr
        simp only [List.mem_cons, List.not_mem_nil, or_false] at hr
        rcases hr with rfl | rfl | rfl <;> exact ⟨_, rfl⟩)
  refine ⟨h.2.1.trans (by decide), (h.2.2 [("plot", Json.obj [])]).trans (by decide)⟩

/-- C2 (amended): the loaded sequence is sorted by parsed timestamp
descending with a stable tie-break, and every entry whose timestamp is
missing or unparsable is assigned the minimum comparison key `0`
(`datetime.min` at UTC) — so such entries come after every entry whose
parsed timestamp is strictly later than that minimum, but they tie (in
original relative order) with entries whose timestamp validly parses to
the minimum time itself. -/
theorem claim_C2_sort_amended (l : List Json)
    (hwf : ∀ r ∈ l, ∃ fields, r = Json.obj fields) :
    (load_results (Json.arr l)).Pairwise
        (fun a b => entryKey b ≤ entryKey a)
    ∧ (∀ kk : Int, (load_results (Json.arr l)).filter
          (fun r => entryKey r == kk)
        = (l.filter hasPlotKey).filter (fun r => entryKey r == kk))
    ∧ (∀ fields, tsBad fields = true → entryKey (Json.obj fields) = 0)
    ∧ (load_results (Json.arr l)).Pairwise
        (fun a b => entryKey a = 0 → entryKey b ≤ 0) := by
  have hsorted : (load_results (Json.arr l)).Pairwise
      (fun a b => entryKey b ≤ entryKey a) := by
    have := List.sorted_mergeSort
      resultOrder_trans resultOrder_total (l.filter hasPlotKey)
    refine List.Pairwise.imp ?_ (by simpa [load_results] using this)
    intro a b h
    simpa [resultOrder] using h
  refine ⟨hsorted, ?_, ?_, ?_⟩
  · intro kk
    simpa [load_results] using mergeSort_filter_key (l.filter hasPlotKey) kk
  · intro fields h
    exact entryKey_dtminUtc fields (parse_timestamp_of_tsBad fields h)
  · exact hsorted.imp (fun h h0 => by omega)

/-- Counterexample to C2 as stated: the entry `exMissing` has no
`timestamp` at all, `exEpoch` carries the perfectly valid timestamp
`"0001-01-01T00:00:00"` — yet the load keeps the timestamp-less entry
BEFORE the validly-timestamped one, because the fallback key equals the
parsed key and the stable sort preserves the original order. -/
theorem claim_C2_counterexample :
    load_results (Json.arr
      [Json.obj [("plot", Json.obj [])],
       Json.obj [("plot", Json.obj []),
                 ("timestamp", Json.str "0001-01-01T00:00:00")]])
      = [Json.obj [("plot", Json.obj [])],
         Json.obj [("plot", Json.obj []),
                   ("timestamp", Json.str "0001-01-01T00:00:00")]]
    ∧ fromisoformat "0001-01-01T00:00:00" = some ⟨0, none⟩
    ∧ pyGet [("plot", Json.obj [])] "timestamp" = none := by
  refine ⟨?_, by decide, rfl⟩
  show (List.filter hasPlotKey _).mergeSort resultOrder = _
  have hf : List.filter hasPlotKey
      [Json.obj [("plot", Json.obj [])],
       Json.obj [("plot", Json.obj []),
                 ("timestamp", Json.str "0001-01-01T00:00:00")]]
      = [Json.obj [("plot", Json.obj [])],
         Json.obj [("plot", Json.obj []),
                   ("timestamp", Json.str "0001-01-01T00:00:00")]] := by decide
  rw [hf]
  exact List.mergeSort_of_sorted (by decide)

/-- Witness for the amended C2 at a concrete list with a tie. -/
theorem claim_C2_witness :
    (load_results (Json.arr
      [Json.obj [("plot", Json.obj [])],
       Json.obj [("plot", Json.obj []),
                 ("timestamp", Json.str "2024-01-01T00:00:00")]])).Pairwise
        (fun a b => entryKey b ≤ entryKey a) :=
  (claim_C2_sort_amended _
    (by intro r hr
        simp only [List.mem_cons, List.not_mem_nil, or_false] at hr
        rcases hr with rfl | rfl <;> exact ⟨_, rfl⟩)).1

/-- C8: exporting the full loaded list (serialization then re-parsing is
the identity on JSON documents, so the payload is the JSON array of the
loaded entries) and re-loading it reproduces the same sequence: every
loaded entry still has its `plot` key, and re-sorting an already sorted
list with the same stable sort changes nothing. -/
theorem claim_C8_roundtrip (l : List Json)
    (hwf : ∀ r ∈ l, ∃ fields, r = Json.obj fields) :
    load_results (download_payload (load_results (Json.arr l)))
      = load_results (Json.arr l) := by
  simp only [download_payload, load_results]
  have h1 : ((l.filter hasPlotKey).mergeSort resultOrder).filter hasPlotKey
      = (l.filter hasPlotKey).mergeSort resultOrder := by
    rw [List.filter_eq_self]
    intro a ha
    rw [List.mem_mergeSort] at ha
    exact List.of_mem_filter ha
  rw [h1]
  exact List.mergeSort_of_sorted
    (List.sorted_mergeSort resultOrder_trans resultOrder_total
      (l.filter hasPlotKey))

/-- Witness for C8 at a concrete two-entry list. -/
theorem claim_C8_witness :
    load_results (download_payload (load_results (Json.arr
      [Json.obj [("plot", Json.obj []), ("query", Json.str "a")],
       Json.obj [("plot", Json.obj []),
                 ("timestamp", Json.str "2024-01-01T00:00:00")]])))
      = load_results (Json.arr
      [Json.obj [("plot", Json.obj []), ("query", Json.str "a")],
       Json.obj [("plot", Json.obj []),
                 ("timestamp", Json.str "2024-01-01T00:00:00")]]) :=
  claim_C8_roundtrip _
    (by intro r hr
        simp only [List.mem_cons, List.not_mem_nil, or_false] at hr
        rcases hr with rfl | rfl <;> exact ⟨_, rfl⟩)

/-!
Claim theorems for the Chart Builder and the Timestamp Parser.
-/

/-- Well-formedness of one TraceSpec as the claims use it: a JSON object
whose `type` value, when present, is hashable (not a JSON array or
object, on which Python's `dict.get` would raise `TypeError`). -/
def wfTrace (tr : Json) : Bool :=
  match tr with
  | Json.obj fields =>
    match pyGet fields "type" with
    | some (Json.arr _) => false
    | some (Json.obj _) => false
    | _ => true
  | _ => false

/-- C1: the builder iterates the `data` traces in order and the rendered
trace list is exactly the in-order image of the fixed dispatch mapping —
one bar trace per `"bar"` trace, one shared-line-builder trace per
`"line"` or `"scatter"` trace, one pie trace per `"pie"` trace, and
nothing (and no error) for any other or missing `type`. -/
theorem claim_C1_builder_dispatch (spec : List (String × Json))
    (data : List Json)
    (hdata : pyGet spec "data" = some (Json.arr data) ∨
      (pyGet spec "data" = none ∧ data = []))
    (hwf : ∀ tr ∈ data, wfTrace tr = true) :
    (plotly_from_metadata spec).traces = data.filterMap claimRendered := by
  have hd : (match pyGet spec "data" with
      | some (Json.arr l) => l
      | _ => []) = data := by
    rcases hdata with h | ⟨h, rfl⟩ <;> rw [h]
  simp only [plotly_from_metadata, updateLayout_traces, hd]
  rw [foldl_applyTrace_traces]
  simp

/-- Witness for C1: a bar trace, an unsupported trace (skipped), and a
scatter trace rendered by the line builder. -/
theorem claim_C1_witness :
    (plotly_from_metadata [("data", Json.arr
      [Json.obj [("type", Json.str "bar"),
                 ("x", Json.arr [Json.num 1, Json.num 2]),
                 ("y", Json.arr [Json.num 3, Json.num 4]),
                 ("name", Json.str "A")],
       Json.obj [("type", Json.str "unsupported")],
       Json.obj [("type", Json.str "scatter"),
                 ("x", Json.arr [Json.num 5]),
                 ("y", Json.arr [Json.num 6])]])]).traces
      = [PlotlyTrace.bar (Json.arr [Json.num 1, Json.num 2])
           (Json.arr [Json.num 3, Json.num 4]) (Json.str "A")
           (Json.obj []) Json.null (Json.str "auto"),
         PlotlyTrace.scatter (Json.arr [Json.num 5]) (Json.arr [Json.num 6])
           "lines+markers" Json.null] := by
  rw [claim_C1_builder_dispatch
    [("data", Json.arr
      [Json.obj [("type", Json.str "bar"),
                 ("x", Json.arr [Json.num 1, Json.num 2]),
                 ("y", Json.arr [Json.num 3, Json.num 4]),
                 ("name", Json.str "A")],
       Json.obj [("type", Json.str "unsupported")],
       Json.obj [("type", Json.str "scatter"),
                 ("x", Json.arr [Json.num 5]),
                 ("y", Json.arr [Json.num 6])]])]
    [Json.obj [("type", Json.str "bar"),
               ("x", Json.arr [Json.num 1, Json.num 2]),
               ("y", Json.arr [Json.num 3, Json.num 4]),
               ("name", Json.str "A")],
     Json.obj [("type", Json.str "unsupported")],
     Json.obj [("type", Json.str "scatter"),
               ("x", Json.arr [Json.num 5]),
               ("y", Json.arr [Json.num 6])]]
    (Or.inl rfl) (by decide)]
  decide

/-- C4: the Timestamp Parser is total (this Lean function is defined on
every entry, mirroring that the Python function catches every parse
exception) and satisfies: a missing or empty `timestamp` yields the
minimum UTC value; a string parsing to a timezone-naive datetime yields
that datetime with UTC assumed; a failing parse yields the minimum UTC
fallback. -/
theorem claim_C4_parse_timestamp (fields : List (String × Json)) :
    (pyGet fields "timestamp" = none → parse_timestamp fields = dtminUtc)
    ∧ (pyGet fields "timestamp" = some (Json.str "") →
        parse_timestamp fields = dtminUtc)
    ∧ (∀ s dt, pyGet fields "timestamp" = some (Json.str s) →
        fromisoformat s = some dt → dt.tzmin = none →
        parse_timestamp fields = ⟨dt.usec, some 0⟩)
    ∧ (∀ s, pyGet fields "timestamp" = some (Json.str s) →
        fromisoformat s = none → parse_timestamp fields = dtminUtc) := by
  refine ⟨?_, ?_, ?_, ?_⟩
  · intro h; simp [parse_timestamp, h]
  · intro h; simp [parse_timestamp, h, falsy]
  · intro s dt h hiso htz
    by_cases hs : s = ""
    · subst hs
      rw [show fromisoformat "" = none from rfl] at hiso
      exact Option.noConfusion hiso
    · have hfal : falsy (Json.str s) = false := by
        simp [falsy, hs]
      simp [parse_timestamp, h, hfal, hiso, htz]
  · intro s h hiso
    by_cases hs : s = ""
    · simp [parse_timestamp, h, hs, falsy]
    · have hfal : falsy (Json.str s) = false := by
        simp [falsy, hs]
      simp [parse_timestamp, h, hfal, hiso]

/-- Witness for C4: a naive timestamp gets UTC assumed, a garbage string
falls back to the minimum. -/
theorem claim_C4_witness :
    parse_timestamp [("timestamp", Json.str "2024-01-01T00:00:00")]
      = ⟨63839664000000000, some 0⟩
    ∧ parse_timestamp [("timestamp", Json.str "garbage")] = dtminUtc := by
  constructor
  · exact (claim_C4_parse_timestamp
      [("timestamp", Json.str "2024-01-01T00:00:00")]).2.2.1
      "2024-01-01T00:00:00" ⟨63839664000000000, none⟩ rfl (by decide) rfl
  · exact (claim_C4_parse_timestamp
      [("timestamp", Json.str "garbage")]).2.2.2 "garbage" rfl (by decide)

/-!
Lookup lemmas for the layout merge.
-/

theorem pyGet_replace_ne (d : List (String × Json)) (k : String) (v : Json)
    (k' : String) (hne : k' ≠ k) :
    pyGet (d.map (fun p => if p.1 == k then (k, v) else p)) k' = pyGet d k' := by
  induction d with
  | nil => rfl
  | cons p rest ih =>
    simp only [List.map_cons]
    unfold pyGet at ih ⊢
    by_cases hp : (p.1 == k) = true
    · have hpk : p.1 = k := by simpa using hp
      have hk2 : (((k, v) : String × Json).1 == k') = false := by
        simp only [beq_eq_false_iff_ne, ne_eq]
        exact fun e => hne e.symm
      have hp2 : (p.1 == k') = false := by rw [hpk]; exact hk2
      rw [hp, if_pos rfl, List.find?_cons, List.find?_cons]
      simp only [hk2, hp2]
      exact ih
    · rw [Bool.not_eq_true] at hp
      simp only [hp, Bool.false_eq_true, if_false]
      rw [List.find?_cons, List.find?_cons]
      by_cases hq : (p.1 == k') = true
      · simp only [hq]
      · rw [Bool.not_eq_true] at hq
        simp only [hq]
        exact ih

theorem pyGet_replace_eq (d : List (String × Json)) (k : String) (v : Json)
    (hmem : d.any (fun p => p.1 == k) = true) :
    pyGet (d.map (fun p => if p.1 == k then (k, v) else p)) k = some v := by
  induction d with
  | nil => simp at hmem
  | cons p rest ih =>
    simp only [List.map_cons]
    unfold pyGet at ih ⊢
    by_cases hp : (p.1 == k) = true
    · rw [hp, if_pos rfl, List.find?_cons]
      simp
    · rw [Bool.not_eq_true] at hp
      simp only [List.any_cons, hp, Bool.false_or] at hmem
      simp only [hp, Bool.false_eq_true, if_false]
      rw [List.find?_cons]
      simp only [hp]
      exact ih hmem

theorem pyGet_dictSet (d : List (String × Json)) (k : String) (v : Json)
    (k' : String) :
    pyGet (dictSet d k v) k' = if k' = k then some v else pyGet d k' := by
  unfold dictSet
  by_cases hmem : d.any (fun p => p.1 == k) = true
  · rw [if_pos hmem]
    by_cases hk : k' = k
    · subst hk; rw [if_pos rfl]; exact pyGet_replace_eq d k' v hmem
    · rw [if_neg hk]; exact pyGet_replace_ne d k v k' hk
  · rw [if_neg hmem]
    rw [Bool.not_eq_true, List.any_eq_false] at hmem
    by_cases hk : k' = k
    · subst hk
      rw [if_pos rfl]
      have hnone : d.find? (fun p => p.1 == k') = none :=
        List.find?_eq_none.mpr hmem
      unfold pyGet
      rw [List.find?_append, hnone]
      simp
    · rw [if_neg hk]
      have h1 : List.find? (fun p => p.1 == k') [(k, v)] = none := by
        have : (((k, v) : String × Json).1 == k') = false := by
          simp only [beq_eq_false_iff_ne, ne_eq]
          exact fun e => hk e.symm
        simp [List.find?_singleton, this]
      unfold pyGet
      rw [List.find?_append, h1, Option.or_none]

theorem pyGet_foldl_dictSet (kvs : List (String × Json))
    (d : List (String × Json)) (k : String)
    (hnd : (kvs.map Prod.fst).Nodup) :
    pyGet (kvs.foldl (fun d kv => dictSet d kv.1 kv.2) d) k
      = (pyGet kvs k).or (pyGet d k) := by
  induction kvs generalizing d with
  | nil => simp [pyGet, List.find?]
  | cons kv rest ih =>
    simp only [List.map_cons, List.nodup_cons] at hnd
    simp only [List.foldl_cons]
    rw [ih _ hnd.2]
    by_cases hk : k = kv.1
    · subst hk
      have hrest : pyGet rest kv.1 = none := by
        have hfind : rest.find? (fun p => p.1 == kv.1) = none := by
          rw [List.find?_eq_none]
          intro x hx hc
          have hx1 : x.1 = kv.1 := by simpa using hc
          exact hnd.1 (hx1 ▸ List.mem_map_of_mem Prod.fst hx)
        unfold pyGet
        rw [hfind]
        rfl
      rw [hrest, pyGet_dictSet, if_pos rfl]
      unfold pyGet
      rw [List.find?_cons]
      simp
    · have h1 : pyGet (dictSet d kv.1 kv.2) k = pyGet d k := by
        rw [pyGet_dictSet, if_neg hk]
      have h2 : pyGet (kv :: rest) k = pyGet rest k := by
        have hb : (kv.1 == k) = false := by
          simp only [beq_eq_false_iff_ne, ne_eq]
          exact fun e => hk e.symm
        unfold pyGet
        rw [List.find?_cons]
        simp only [hb]
      rw [h1, h2]

/-- C5: the final layout is the fixed defaults shallow-merged with the
caller's `layout` overrides — a key supplied in `plotSpec.layout` maps to
the caller's value, any other key maps to its default (or nothing). The
embedding is pure, so the shared `defaultLayoutKwargs` record itself is
never mutated by a build. -/
theorem claim_C5_layout_merge (spec : List (String × Json))
    (ov : List (String × Json))
    (hov : pyGet spec "layout" = some (Json.obj ov) ∨
      (pyGet spec "layout" = none ∧ ov = []))
    (hnd : (ov.map Prod.fst).Nodup) (k : String) :
    pyGet (plotly_from_metadata spec).layout k
      = (pyGet ov k).or (pyGet defaultLayoutKwargs k) := by
  have hl : (match pyGet spec "layout" with
      | some (Json.obj fs) => fs
      | _ => []) = ov := by
    rcases hov with h | ⟨h, rfl⟩ <;> rw [h]
  simp only [plotly_from_metadata, updateLayout, hl]
  rw [pyGet_foldl_dictSet _ _ _ hnd,
    pyGet_foldl_dictSet _ _ _ (by decide), foldl_applyTrace_layout]
  have hempty : pyGet ([] : List (String × Json)) k = none := rfl
  rw [hempty, Option.or_none]

/-- Witness for C5: `title_x` is overridden, `template` keeps its
default, `height` is a fresh caller key. -/
theorem claim_C5_witness :
    pyGet (plotly_from_metadata
      [("layout", Json.obj [("title_x", Json.num 1),
                            ("height", Json.num 400)])]).layout "title_x"
      = some (Json.num 1)
    ∧ pyGet (plotly_from_metadata
      [("layout", Json.obj [("title_x", Json.num 1),
                            ("height", Json.num 400)])]).layout "template"
      = some (Json.str "plotly_dark")
    ∧ pyGet (plotly_from_metadata
      [("layout", Json.obj [("title_x", Json.num 1),
                            ("height", Json.num 400)])]).layout "height"
      = some (Json.num 400) := by
  refine ⟨?_, ?_, ?_⟩ <;>
    rw [claim_C5_layout_merge
      [("layout", Json.obj [("title_x", Json.num 1),
                            ("height", Json.num 400)])]
      [("title_x", Json.num 1), ("height", Json.num 400)]
      (Or.inl rfl) (by decide)] <;>
    decide

/-- C6: the detector reports the capitalized `type` of the first trace,
and the literal `"Unknown"` when `data` is absent or empty or the first
trace has no `type` (since `"Unknown".capitalize()` is `"Unknown"`). -/
theorem claim_C6_detect (spec : List (String × Json)) :
    (pyGet spec "data" = none → detect_chart_type spec = "Unknown")
    ∧ (pyGet spec "data" = some (Json.arr []) →
        detect_chart_type spec = "Unknown")
    ∧ (∀ fields rest,
        pyGet spec "data" = some (Json.arr (Json.obj fields :: rest)) →
        (pyGet fields "type" = none → detect_chart_type spec = "Unknown")
        ∧ (∀ t, pyGet fields "type" = some (Json.str t) →
            detect_chart_type spec = pyCapitalize t)) := by
  refine ⟨?_, ?_, ?_⟩
  · intro h; simp [detect_chart_type, h]
  · intro h; simp [detect_chart_type, h]
  · intro fields rest h
    constructor
    · intro ht
      simp only [detect_chart_type, h, Option.getD_some]
      rw [ht]
      decide
    · intro t ht
      simp only [detect_chart_type, h, Option.getD_some]
      rw [ht]

/-- Witness for C6: `"pie"` capitalizes to `"Pie"`; empty and absent
`data` report `"Unknown"`. -/
theorem claim_C6_witness :
    detect_chart_type [("data", Json.arr [Json.obj [("type", Json.str "pie")]])]
      = "Pie"
    ∧ detect_chart_type [("data", Json.arr [])] = "Unknown"
    ∧ detect_chart_type [] = "Unknown" := by
  refine ⟨?_, ?_, ?_⟩
  · exact (((claim_C6_detect
      [("data", Json.arr [Json.obj [("type", Json.str "pie")]])]).2.2
      [("type", Json.str "pie")] [] rfl).2 "pie" rfl).trans (by decide)
  · exact (claim_C6_detect [("data", Json.arr [])]).2.1 rfl
  · exact (claim_C6_detect []).1 rfl

/-!
Helper lemmas for the Selection/Filter Layer.
-/

/-- Raw query strings of the result list: `r.get("query", "Unnamed
Query")` per entry, defined when every such value is a string (otherwise
`q.lower()` raises in the filter comprehension). -/
def queryStrings (results : List Json) : Option (List String) :=
  (results.map rawQuery).mapM (fun j =>
    match j with
    | Json.str s => some s
    | _ => none)

theorem mapM_lowerQuery (l : List Json) :
    l.mapM lowerQuery
      = (l.mapM (fun j => match j with
          | Json.str s => some s
          | _ => none)).map (List.map pyLower) := by
  induction l with
  | nil => rfl
  | cons j rest ih =>
    rw [List.mapM_cons, List.mapM_cons]
    cases j with
    | str s =>
      simp only [lowerQuery, ih]
      cases hrest : rest.mapM (fun j => match j with
          | Json.str s => some s
          | _ => none) <;> simp
    | null => simp [lowerQuery]
    | bool b => simp [lowerQuery]
    | num q => simp [lowerQuery]
    | arr l => simp [lowerQuery]
    | obj fs => simp [lowerQuery]

theorem mapM_option_getElem {α β : Type} (f : α → Option β) :
    ∀ (l : List α) (bs : List β), l.mapM f = some bs →
      ∀ (i : Nat) (a : α), l[i]? = some a →
        ∃ b, bs[i]? = some b ∧ f a = some b := by
  intro l
  induction l with
  | nil => intro bs h i a ha; simp at ha
  | cons x rest ih =>
    intro bs h i a ha
    rw [List.mapM_cons] at h
    cases hfx : f x with
    | none => rw [hfx] at h; simp at h
    | some b0 =>
      rw [hfx] at h
      cases hrest : rest.mapM f with
      | none => rw [hrest] at h; simp at h
      | some bs' =>
        rw [hrest] at h
        have hbs : bs = b0 :: bs' := by
          simpa using h.symm
        subst hbs
        match i, ha with
        | 0, ha =>
          rw [List.getElem?_cons_zero] at ha
          obtain rfl : x = a := Option.some.inj ha
          exact ⟨b0, by simp, hfx⟩
        | Nat.succ j, ha =>
          simp only [List.getElem?_cons_succ] at ha ⊢
          exact ih bs' hrest j a ha

theorem pairwise_fst_lt_enumFrom {α : Type} (n : Nat) (l : List α) :
    (l.enumFrom n).Pairwise (fun a b => a.1 < b.1) := by
  induction l generalizing n with
  | nil => simp
  | cons x xs ih =>
    rw [List.enumFrom_cons]
    refine List.Pairwise.cons ?_ (ih (n + 1))
    intro p hp
    have h := List.le_fst_of_mem_enumFrom hp
    show n < p.1
    omega

theorem filterMap_if_fst {β : Type} (c : Nat × β → Bool)
    (l : List (Nat × β)) :
    l.filterMap (fun p => if c p then some p.1 else none)
      = (l.filter c).map Prod.fst := by
  induction l with
  | nil => rfl
  | cons p rest ih =>
    by_cases hc : c p = true <;>
      simp [List.filterMap_cons, List.filter_cons, hc, ih]

theorem filtered_indices_some (results : List Json) (search : String)
    (qs : List String) (hq : queryStrings results = some qs)
    (hs : search ≠ "") :
    filtered_indices results search
      = some ((qs.map pyLower).enum.filterMap (fun p =>
          if containsChars p.2.data (pyLower search).data then some p.1
          else none)) := by
  unfold filtered_indices
  rw [if_neg hs, mapM_lowerQuery]
  unfold queryStrings at hq
  rw [hq]
  rfl

theorem mem_filtered_indices_iff (results : List Json) (search : String)
    (qs : List String) (idxs : List Nat)
    (hq : queryStrings results = some qs) (hs : search ≠ "")
    (hidx : filtered_indices results search = some idxs) (i : Nat) :
    i ∈ idxs ↔ ∃ q, qs[i]? = some q ∧
      containsChars (pyLower q).data (pyLower search).data = true := by
  rw [filtered_indices_some results search qs hq hs] at hidx
  obtain rfl : _ = idxs := Option.some.inj hidx
  rw [List.mem_filterMap]
  constructor
  · rintro ⟨⟨j, q⟩, hmem, hf⟩
    have hget : (qs.map pyLower)[j]? = some q :=
      List.mk_mem_enum_iff_getElem?.mp hmem
    by_cases hc : containsChars q.data (pyLower search).data = true
    · rw [if_pos hc] at hf
      have hji : j = i := Option.some.inj hf
      rw [hji, List.getElem?_map] at hget
      cases hq0 : qs[i]? with
      | none => rw [hq0] at hget; exact absurd hget (by simp)
      | some q0 =>
        rw [hq0] at hget
        have hql : pyLower q0 = q := by
          simpa using hget
        exact ⟨q0, rfl, by rw [hql]; exact hc⟩
    · rw [if_neg hc] at hf
      exact absurd hf (by simp)
  · rintro ⟨q, hq0, hc⟩
    refine ⟨(i, pyLower q), ?_, ?_⟩
    · exact List.mk_mem_enum_iff_getElem?.mpr
        (by rw [List.getElem?_map, hq0]; rfl)
    · simpa using hc

theorem pairwise_filtered_indices (results : List Json) (search : String)
    (qs : List String) (idxs : List Nat)
    (hq : queryStrings results = some qs) (hs : search ≠ "")
    (hidx : filtered_indices results search = some idxs) :
    idxs.Pairwise (fun a b => a < b) := by
  rw [filtered_indices_some results search qs hq hs] at hidx
  obtain rfl : _ = idxs := Option.some.inj hidx
  rw [filterMap_if_fst]
  rw [List.pairwise_map]
  exact (pairwise_fst_lt_enumFrom 0 (qs.map pyLower)).sublist
    (List.filter_sublist _)

/-!
Claim theorems for the Selection/Filter Layer.
-/

/-- C7: an empty query keeps every index `0..N-1` in order; a non-empty
query keeps index `i` exactly when the lowercased search term occurs as
a substring of the lowercased query text of entry `i`; indices come out
in increasing (original) order; when nothing matches, the result is the
empty sequence (an empty state, with no error: the function stays
defined). -/
theorem claim_C7_filter (results : List Json) (search : String)
    (qs : List String) (hq : queryStrings results = some qs) :
    (search = "" →
      filtered_indices results search = some (List.range results.length))
    ∧ (search ≠ "" → ∃ idxs,
        filtered_indices results search = some idxs
        ∧ (∀ i : Nat, i ∈ idxs ↔ ∃ q, qs[i]? = some q ∧
            containsChars (pyLower q).data (pyLower search).data = true)
        ∧ idxs.Pairwise (fun a b => a < b)
        ∧ ((∀ (i : Nat) (q : String), qs[i]? = some q →
              containsChars (pyLower q).data (pyLower search).data = false) →
            idxs = [])) := by
  constructor
  · intro h
    unfold filtered_indices
    rw [if_pos h]
  · intro hs
    refine ⟨_, filtered_indices_some results search qs hq hs, ?_, ?_, ?_⟩
    · intro i
      exact mem_filtered_indices_iff results search qs _ hq hs
        (filtered_indices_some results search qs hq hs) i
    · exact pairwise_filtered_indices results search qs _ hq hs
        (filtered_indices_some results search qs hq hs)
    · intro hnone
      rw [List.eq_nil_iff_forall_not_mem]
      intro i hi
      obtain ⟨q, hq0, hc⟩ := (mem_filtered_indices_iff results search qs _
        hq hs (filtered_indices_some results search qs hq hs) i).mp hi
      rw [hnone i q hq0] at hc
      exact Bool.false_ne_true hc

/-- Witness for C7: `""` returns all indices; `"q2"` selects exactly the
second entry; `"XYZ"` matches nothing and returns the empty sequence. -/
theorem claim_C7_witness :
    filtered_indices
        [Json.obj [("query", Json.str "Revenue Q1")],
         Json.obj [("query", Json.str "Revenue Q2")]] ""
      = some [0, 1]
    ∧ (∃ idxs, filtered_indices
        [Json.obj [("query", Json.str "Revenue Q1")],
         Json.obj [("query", Json.str "Revenue Q2")]] "q2"
      = some idxs ∧ 1 ∈ idxs ∧ ¬0 ∈ idxs)
    ∧ (∃ idxs, filtered_indices
        [Json.obj [("query", Json.str "Revenue Q1")],
         Json.obj [("query", Json.str "Revenue Q2")]] "XYZ"
      = some idxs ∧ idxs = []) := by
  refine ⟨?_, ?_, ?_⟩
  · exact ((claim_C7_filter
      [Json.obj [("query", Json.str "Revenue Q1")],
       Json.obj [("query", Json.str "Revenue Q2")]]
      "" ["Revenue Q1", "Revenue Q2"] rfl).1 rfl).trans (by decide)
  · obtain ⟨idxs, hidx, hmem, -, -⟩ := (claim_C7_filter
      [Json.obj [("query", Json.str "Revenue Q1")],
       Json.obj [("query", Json.str "Revenue Q2")]]
      "q2" ["Revenue Q1", "Revenue Q2"] rfl).2 (by decide)
    refine ⟨idxs, hidx, (hmem 1).mpr ⟨"Revenue Q2", rfl, by decide⟩, ?_⟩
    intro h0
    obtain ⟨q, hgq, hc⟩ := (hmem 0).mp h0
    obtain rfl : "Revenue Q1" = q := Option.some.inj hgq
    exact absurd hc (by decide)
  · obtain ⟨idxs, hidx, -, -, hempty⟩ := (claim_C7_filter
      [Json.obj [("query", Json.str "Revenue Q1")],
       Json.obj [("query", Json.str "Revenue Q2")]]
      "XYZ" ["Revenue Q1", "Revenue Q2"] rfl).2 (by decide)
    refine ⟨idxs, hidx, hempty ?_⟩
    intro i q hgq
    match i, hgq with
    | 0, hgq =>
      obtain rfl : "Revenue Q1" = q := Option.some.inj hgq
      decide
    | 1, hgq =>
      obtain rfl : "Revenue Q2" = q := Option.some.inj hgq
      decide
    | Nat.succ (Nat.succ n), hgq => simp at hgq

/-- C10: an entry lacking a `query` field is searched (and displayed)
under the substitute text `"Unnamed Query"`: its query-string slot holds
that literal, and a non-empty search term matches it exactly when the
lowercased term occurs inside `"unnamed query"`. -/
theorem claim_C10_unnamed_query (results : List Json) (search : String)
    (qs : List String) (hq : queryStrings results = some qs)
    (hs : search ≠ "") (i : Nat) (r : Json) (hr : results[i]? = some r)
    (hnone : pyGetJ r "query" = none) :
    qs[i]? = some "Unnamed Query"
    ∧ ∀ idxs, filtered_indices results search = some idxs →
        (i ∈ idxs ↔ containsChars (pyLower "Unnamed Query").data
            (pyLower search).data = true) := by
  have hraw : (results.map rawQuery)[i]? = some (Json.str "Unnamed Query") := by
    rw [List.getElem?_map, hr]
    simp [rawQuery, hnone]
  have hqi : qs[i]? = some "Unnamed Query" := by
    unfold queryStrings at hq
    obtain ⟨b, hb, hfb⟩ := mapM_option_getElem _ _ _ hq i _ hraw
    obtain rfl : "Unnamed Query" = b := Option.some.inj hfb
    exact hb
  refine ⟨hqi, ?_⟩
  intro idxs hidx
  rw [mem_filtered_indices_iff results search qs idxs hq hs hidx i]
  constructor
  · rintro ⟨q, hq0, hc⟩
    rw [hqi] at hq0
    obtain rfl : "Unnamed Query" = q := Option.some.inj hq0
    exact hc
  · intro hc
    exact ⟨"Unnamed Query", hqi, hc⟩

/-- Witness for C10: a single entry with no `query` field is matched by
the case-insensitive fragment `"AMED Qu"`. -/
theorem claim_C10_witness :
    (queryStrings [Json.obj [("plot", Json.obj [])]] = some ["Unnamed Query"])
    ∧ ∃ idxs,
      filtered_indices [Json.obj [("plot", Json.obj [])]] "AMED Qu"
        = some idxs ∧ 0 ∈ idxs := by
  refine ⟨rfl, [0], by decide, ?_⟩
  have h := claim_C10_unnamed_query [Json.obj [("plot", Json.obj [])]]
    "AMED Qu" ["Unnamed Query"] rfl (by decide) 0
    (Json.obj [("plot", Json.obj [])]) rfl rfl
  exact (h.2 [0] (by decide)).mpr (by decide)

/-!
Claim theorems for the cached loader.
-/

/-- File system holding `plots.json` with one plot entry. -/
def cacheFsA : String → Option Json := fun p =>
  if p = "plots.json" then
    some (Json.arr [Json.obj [("plot", Json.obj [])]])
  else none

/-- The same path after its content changed. -/
def cacheFsB : String → Option Json := fun p =>
  if p = "plots.json" then
    some (Json.arr [Json.obj [("plot", Json.obj []),
                              ("query", Json.str "changed")]])
  else none

/-- C9 (amended): `st.cache_data` memoizes on the path argument alone.
An uncached path is computed from the current file content, and a cached
path returns the stored value, which agrees with a fresh recomputation
exactly when that stored value still equals what the current content
yields — a content change alone does not invalidate the cache. -/
theorem claim_C9_cache_amended (cache : List (String × List Json))
    (fs : String → Option Json) (path : String) :
    (cache.find? (fun p => p.1 == path) = none →
      (cached_load cache fs path).1 = load_results_pure (fs path))
    ∧ (∀ kv, cache.find? (fun p => p.1 == path) = some kv →
        ((cached_load cache fs path).1 = load_results_pure (fs path)
          ↔ kv.2 = load_results_pure (fs path))) := by
  constructor
  · intro h
    simp [cached_load, h]
  · intro kv h
    simp [cached_load, h]

/-- Counterexample to C9 as stated: load `plots.json` once (content A,
cached), change the file content to B, load again — the second call
returns the stale value computed from A, not a fresh recomputation from
the current content B. -/
theorem claim_C9_counterexample :
    (cached_load (cached_load [] cacheFsA "plots.json").2 cacheFsB
        "plots.json").1
      ≠ load_results_pure (cacheFsB "plots.json")
    ∧ (cached_load (cached_load [] cacheFsA "plots.json").2 cacheFsB
        "plots.json").1
      = load_results_pure (cacheFsA "plots.json") := by
  have h1 : cached_load [] cacheFsA "plots.json"
      = ([Json.obj [("plot", Json.obj [])]],
         [("plots.json", [Json.obj [("plot", Json.obj [])]])]) := by
    simp [cached_load, cacheFsA, load_results_pure, load_results,
      List.find?, List.filter,
      show hasPlotKey (Json.obj [("plot", Json.obj [])]) = true from rfl]
  have h2 : (cached_load
      [("plots.json", [Json.obj [("plot", Json.obj [])]])] cacheFsB
      "plots.json").1 = [Json.obj [("plot", Json.obj [])]] := by
    simp [cached_load, List.find?]
  have h3 : load_results_pure (cacheFsB "plots.json")
      = [Json.obj [("plot", Json.obj []), ("query", Json.str "changed")]] := by
    simp [cacheFsB, load_results_pure, load_results, List.filter,
      show hasPlotKey (Json.obj [("plot", Json.obj []),
        ("query", Json.str "changed")]) = true from rfl]
  have h4 : load_results_pure (cacheFsA "plots.json")
      = [Json.obj [("plot", Json.obj [])]] := by
    simp [cacheFsA, load_results_pure, load_results, List.filter,
      show hasPlotKey (Json.obj [("plot", Json.obj [])]) = true from rfl]
  rw [h1, h2, h3, h4]
  exact ⟨by decide, rfl⟩

/-- Witness for the amended C9: the first (uncached) call equals a fresh
load from the current content. -/
theorem claim_C9_witness :
    (cached_load [] cacheFsA "plots.json").1
      = load_results_pure (cacheFsA "plots.json") :=
  (claim_C9_cache_amended [] cacheFsA "plots.json").1 rfl

end Dashboard
